import Mathlib

/-!
# Verification of the `DAO_Treasury_Hedge_FHE` contract

Shallow embedding of the Solidity contract `DAO_Treasury_Hedge_FHE`
(file `src/unnamed/part_000`) and proofs about it.

Modelling conventions:
* `Address` and 32-byte words (`bytes32`, `euint32` ciphertext handles)
  are modelled as `Nat`.  Solidity mappings are total functions with the
  zero default, exactly as EVM storage behaves.
* `keccak256(abi.encode(cts, address(this)))` in `_hashCiphertexts` is
  modelled as the injective pairing `some (cts, self)`; the `bytes32(0)`
  default value of an unset storage slot is modelled as `none`
  (idealizing that no computed keccak hash collides with the zero word).
* External FHE-capability calls (`FHE.isInitialized`,
  `FHE.checkSignatures`) are parameters of an `FHEEnv` record.
  `FHE.requestDecryption` returns a globally unique request id; this is
  modelled by a gateway counter `oracleNextRequestId` carried alongside
  the contract storage, incremented on each request.
* `cleartexts : bytes` is modelled as the list of its 32-byte words;
  `abi.decode(cleartexts[i:i+32], (uint256))` is indexing into that
  list, and slicing past the end of the bytes (a plain EVM revert in
  Solidity) is the error `SliceOutOfBounds`.
* A Solidity `revert` undoes every storage write of the transaction, so
  each external function is a total function returning
  `Except Err (ContractState × List Event)`; the transaction-level
  wrapper `exec…` keeps the pre-state on `.error`.
-/

namespace DAOTreasuryHedge

abbrev Address := Nat

/-- A 32-byte word: a `bytes32` ciphertext handle / `euint32` handle. -/
abbrev Word := Nat

/-- Value of `_hashCiphertexts` / a stored `bytes32` hash slot.
`keccak256(abi.encode(cts, address(this)))` is modelled injectively as
`some (cts, self)`; the zero default of an unset slot is `none`. -/
abbrev HashVal := Option (List Word × Address)

/-- `_hashCiphertexts(cts)` = `keccak256(abi.encode(cts, address(this)))`. -/
def hashCiphertexts (cts : List Word) (self : Address) : HashVal :=
  some (cts, self)

/-- Hard-coded example asset 1 (`0x1111…1111`). -/
def asset1 : Address := 0x1111111111111111111111111111111111111111

/-- Hard-coded example asset 2 (`0x2222…2222`). -/
def asset2 : Address := 0x2222222222222222222222222222222222222222

/-- The fixed asset enumeration used by `requestBatchDecryption` and
`myCallback` (`assets[0]`, `assets[1]`). -/
def assetList : List Address := [asset1, asset2]

/-- The `DecryptionContext` struct. -/
structure DecryptionContext where
  batchId : Nat
  stateHash : HashVal
  processed : Bool
deriving Repr, DecidableEq

/-- The all-zero `DecryptionContext` an unset mapping slot reads as. -/
def emptyContext : DecryptionContext :=
  { batchId := 0, stateHash := none, processed := false }

/-- The external FHE capability: the two boolean oracles the contract
consults (`FHE.isInitialized`, `FHE.checkSignatures`). -/
structure FHEEnv where
  isInit : Word → Bool
  checkSignatures : Nat → List Word → List Word → Bool

/-- Contract storage, plus the gateway's unique-request-id counter. -/
structure ContractState where
  thisAddr : Address
  owner : Address
  isProvider : Address → Bool
  paused : Bool
  cooldownSeconds : Nat
  lastSubmissionTime : Address → Nat
  lastDecryptionRequestTime : Address → Nat
  currentBatchId : Nat
  isBatchClosed : Nat → Bool
  decryptionContexts : Nat → DecryptionContext
  encryptedAssetAmounts : Nat → Address → Word
  encryptedHedgeAmounts : Nat → Address → Word
  oracleNextRequestId : Nat

/-- The custom errors of the contract, plus `SliceOutOfBounds` for the
plain EVM revert on an out-of-range `bytes` slice. -/
inductive Err where
  | NotOwner
  | NotProvider
  | Paused
  | CooldownActive
  | BatchClosed
  | InvalidBatch
  | ReplayAttempt
  | StateMismatch
  | InvalidDecryptionProof
  | NotInitialized
  | SliceOutOfBounds
deriving Repr, DecidableEq

/-- The events the contract emits. -/
inductive Event where
  | OwnershipTransferred (previousOwner newOwner : Address)
  | ProviderAdded (provider : Address)
  | ProviderRemoved (provider : Address)
  | PauseToggled (paused : Bool)
  | CooldownSecondsChanged (oldCooldownSeconds newCooldownSeconds : Nat)
  | BatchOpened (batchId : Nat)
  | BatchClosed (batchId : Nat)
  | AssetSubmitted (batchId : Nat) (provider asset : Address) (amount : Word)
  | HedgeSubmitted (batchId : Nat) (provider asset : Address) (amount : Word)
  | DecryptionRequested (requestId batchId : Nat) (stateHash : HashVal)
  | DecryptionCompleted (requestId batchId : Nat)
      (assetAmounts hedgeAmounts : List Nat)
deriving Repr, DecidableEq

/-- Result of one external call: error (revert) or new state + events. -/
abbrev Result := Except Err (ContractState × List Event)

/-- The constructor: deployer becomes owner, batch 1 is opened,
cooldown defaults to 60 seconds.  Unset mappings read their zero
defaults. -/
def initState (deployer self : Address) : ContractState where
  thisAddr := self
  owner := deployer
  isProvider := fun _ => false
  paused := false
  cooldownSeconds := 60
  lastSubmissionTime := fun _ => 0
  lastDecryptionRequestTime := fun _ => 0
  currentBatchId := 1
  isBatchClosed := fun _ => false
  decryptionContexts := fun _ => emptyContext
  encryptedAssetAmounts := fun _ _ => 0
  encryptedHedgeAmounts := fun _ _ => 0
  oracleNextRequestId := 0

/-- `transferOwnership(newOwner)`: `onlyOwner`, then sets `owner`
unconditionally. -/
def transferOwnership (s : ContractState) (sender newOwner : Address) :
    Result :=
  if sender ≠ s.owner then .error .NotOwner
  else .ok ({ s with owner := newOwner },
            [.OwnershipTransferred s.owner newOwner])

/-- `addProvider(provider)`: `onlyOwner`, sets the provider flag. -/
def addProvider (s : ContractState) (sender provider : Address) : Result :=
  if sender ≠ s.owner then .error .NotOwner
  else .ok ({ s with isProvider := Function.update s.isProvider provider true },
            [.ProviderAdded provider])

/-- `removeProvider(provider)`: `onlyOwner`, clears the provider flag. -/
def removeProvider (s : ContractState) (sender provider : Address) : Result :=
  if sender ≠ s.owner then .error .NotOwner
  else .ok ({ s with isProvider := Function.update s.isProvider provider false },
            [.ProviderRemoved provider])

/-- `setPaused(_paused)`: `onlyOwner`, sets the pause flag. -/
def setPaused (s : ContractState) (sender : Address) (p : Bool) : Result :=
  if sender ≠ s.owner then .error .NotOwner
  else .ok ({ s with paused := p }, [.PauseToggled p])

/-- `setCooldownSeconds(_cooldownSeconds)`: `onlyOwner`. -/
def setCooldownSeconds (s : ContractState) (sender : Address) (n : Nat) :
    Result :=
  if sender ≠ s.owner then .error .NotOwner
  else .ok ({ s with cooldownSeconds := n },
            [.CooldownSecondsChanged s.cooldownSeconds n])

/-- `openNewBatch()`: `onlyOwner whenNotPaused`; increments
`currentBatchId` (closing nothing). -/
def openNewBatch (s : ContractState) (sender : Address) : Result :=
  if sender ≠ s.owner then .error .NotOwner
  else if s.paused then .error .Paused
  else .ok ({ s with currentBatchId := s.currentBatchId + 1 },
            [.BatchOpened (s.currentBatchId + 1)])

/-- `closeCurrentBatch()`: `onlyOwner whenNotPaused`; marks the current
batch closed. -/
def closeCurrentBatch (s : ContractState) (sender : Address) : Result :=
  if sender ≠ s.owner then .error .NotOwner
  else if s.paused then .error .Paused
  else .ok ({ s with
              isBatchClosed :=
                Function.update s.isBatchClosed s.currentBatchId true },
            [.BatchClosed s.currentBatchId])

/-- `submitEncryptedAssetAmount(batchId, asset, amount)`.
Modifier order `onlyProvider whenNotPaused submissionCooldown(msg.sender)`
gives the check order NotProvider → Paused → CooldownActive, then the
body's InvalidBatch → BatchClosed → NotInitialized checks; on success the
handle is stored and `onlyProvider`'s post-code sets
`lastSubmissionTime[msg.sender] = block.timestamp`. -/
def submitEncryptedAssetAmount (env : FHEEnv) (s : ContractState)
    (sender : Address) (now batchId : Nat) (asset : Address)
    (amount : Word) : Result :=
  if ¬ s.isProvider sender then .error .NotProvider
  else if s.paused then .error .Paused
  else if now < s.lastSubmissionTime sender + s.cooldownSeconds then
    .error .CooldownActive
  else if batchId ≠ s.currentBatchId then .error .InvalidBatch
  else if s.isBatchClosed batchId then .error .BatchClosed
  else if ¬ env.isInit amount then .error .NotInitialized
  else .ok
    ({ s with
        encryptedAssetAmounts :=
          Function.update s.encryptedAssetAmounts batchId
            (Function.update (s.encryptedAssetAmounts batchId) asset amount)
        lastSubmissionTime := Function.update s.lastSubmissionTime sender now },
     [.AssetSubmitted batchId sender asset amount])

/-- `submitEncryptedHedgeAmount(batchId, asset, amount)`: identical to
the asset variant but writing `encryptedHedgeAmounts`. -/
def submitEncryptedHedgeAmount (env : FHEEnv) (s : ContractState)
    (sender : Address) (now batchId : Nat) (asset : Address)
    (amount : Word) : Result :=
  if ¬ s.isProvider sender then .error .NotProvider
  else if s.paused then .error .Paused
  else if now < s.lastSubmissionTime sender + s.cooldownSeconds then
    .error .CooldownActive
  else if batchId ≠ s.currentBatchId then .error .InvalidBatch
  else if s.isBatchClosed batchId then .error .BatchClosed
  else if ¬ env.isInit amount then .error .NotInitialized
  else .ok
    ({ s with
        encryptedHedgeAmounts :=
          Function.update s.encryptedHedgeAmounts batchId
            (Function.update (s.encryptedHedgeAmounts batchId) asset amount)
        lastSubmissionTime := Function.update s.lastSubmissionTime sender now },
     [.HedgeSubmitted batchId sender asset amount])

/-- The ordered ciphertext-handle snapshot both `requestBatchDecryption`
and `myCallback` assemble: for each asset of the fixed enumeration, the
Amount handle then the Hedge handle
(`FHE.toBytes32` on a `Nat`-modelled handle is the identity). -/
def buildCts (s : ContractState) (batchId : Nat) : List Word :=
  (assetList.map fun a =>
    [s.encryptedAssetAmounts batchId a, s.encryptedHedgeAmounts batchId a]).flatten

/-- `requestBatchDecryption(batchId)`.
Modifier order `onlyOwner whenNotPaused decryptionCooldown(msg.sender)`:
NotOwner → Paused → CooldownActive, then the body's InvalidBatch check;
on success the snapshot is hashed, the gateway issues the fresh
`requestId`, the context is stored with `processed := false`, and the
modifier post-code records `lastDecryptionRequestTime[msg.sender]`. -/
def requestBatchDecryption (s : ContractState) (sender : Address)
    (now batchId : Nat) : Result :=
  if sender ≠ s.owner then .error .NotOwner
  else if s.paused then .error .Paused
  else if now < s.lastDecryptionRequestTime sender + s.cooldownSeconds then
    .error .CooldownActive
  else if ¬ s.isBatchClosed batchId then .error .InvalidBatch
  else
    let cts := buildCts s batchId
    let stateHash := hashCiphertexts cts s.thisAddr
    let requestId := s.oracleNextRequestId
    .ok ({ s with
            decryptionContexts :=
              Function.update s.decryptionContexts requestId
                { batchId := batchId, stateHash := stateHash,
                  processed := false }
            oracleNextRequestId := s.oracleNextRequestId + 1
            lastDecryptionRequestTime :=
              Function.update s.lastDecryptionRequestTime sender now },
          [.DecryptionRequested requestId batchId stateHash])

/-- `myCallback(requestId, cleartexts, proof)` — no modifiers, callable
by anyone, not pause-gated.  Replay guard, state-hash verification
against the snapshot rebuilt from current storage, proof verification,
positional decode of `cleartexts` (words `2*i` and `2*i+1` per asset),
then `processed := true` and `DecryptionCompleted`. -/
def myCallback (env : FHEEnv) (s : ContractState) (requestId : Nat)
    (cleartexts proof : List Word) : Result :=
  let context := s.decryptionContexts requestId
  if context.processed then .error .ReplayAttempt
  else
    let cts := buildCts s context.batchId
    let currentHash := hashCiphertexts cts s.thisAddr
    if currentHash ≠ context.stateHash then .error .StateMismatch
    else if ¬ env.checkSignatures requestId cleartexts proof then
      .error .InvalidDecryptionProof
    else if cleartexts.length < 2 * assetList.length then
      .error .SliceOutOfBounds
    else
      let assetAmounts :=
        (List.range assetList.length).map fun i => cleartexts.getD (2 * i) 0
      let hedgeAmounts :=
        (List.range assetList.length).map fun i => cleartexts.getD (2 * i + 1) 0
      .ok ({ s with
              decryptionContexts :=
                Function.update s.decryptionContexts requestId
                  { context with processed := true } },
            [.DecryptionCompleted requestId context.batchId
              assetAmounts hedgeAmounts])

/-- One external call: every entry point of the contract. -/
inductive Op where
  | transferOwnership (sender newOwner : Address)
  | addProvider (sender provider : Address)
  | removeProvider (sender provider : Address)
  | setPaused (sender : Address) (p : Bool)
  | setCooldownSeconds (sender : Address) (n : Nat)
  | openNewBatch (sender : Address)
  | closeCurrentBatch (sender : Address)
  | submitAsset (sender : Address) (now batchId : Nat) (asset : Address)
      (amount : Word)
  | submitHedge (sender : Address) (now batchId : Nat) (asset : Address)
      (amount : Word)
  | requestDecryption (sender : Address) (now batchId : Nat)
  | callback (requestId : Nat) (cleartexts proof : List Word)

/-- `msg.sender` of an operation (`myCallback` checks no sender). -/
def Op.senderOf : Op → Option Address
  | .transferOwnership sender _ => some sender
  | .addProvider sender _ => some sender
  | .removeProvider sender _ => some sender
  | .setPaused sender _ => some sender
  | .setCooldownSeconds sender _ => some sender
  | .openNewBatch sender => some sender
  | .closeCurrentBatch sender => some sender
  | .submitAsset sender _ _ _ _ => some sender
  | .submitHedge sender _ _ _ _ => some sender
  | .requestDecryption sender _ _ => some sender
  | .callback _ _ _ => none

/-- Dispatch one external call. -/
def step (env : FHEEnv) (s : ContractState) : Op → Result
  | .transferOwnership sender newOwner => transferOwnership s sender newOwner
  | .addProvider sender provider => addProvider s sender provider
  | .removeProvider sender provider => removeProvider s sender provider
  | .setPaused sender p => setPaused s sender p
  | .setCooldownSeconds sender n => setCooldownSeconds s sender n
  | .openNewBatch sender => openNewBatch s sender
  | .closeCurrentBatch sender => closeCurrentBatch s sender
  | .submitAsset sender now batchId asset amount =>
      submitEncryptedAssetAmount env s sender now batchId asset amount
  | .submitHedge sender now batchId asset amount =>
      submitEncryptedHedgeAmount env s sender now batchId asset amount
  | .requestDecryption sender now batchId =>
      requestBatchDecryption s sender now batchId
  | .callback requestId cleartexts proof =>
      myCallback env s requestId cleartexts proof

/-- Transaction-level semantics: a revert leaves storage unchanged. -/
def execStep (env : FHEEnv) (s : ContractState) (op : Op) : ContractState :=
  match step env s op with
  | .error _ => s
  | .ok (s', _) => s'

/-- States reachable from deployment by any sequence of external calls. -/
inductive Reachable (env : FHEEnv) : ContractState → Prop where
  | init (deployer self : Address) : Reachable env (initState deployer self)
  | next {s : ContractState} (op : Op) :
      Reachable env s → Reachable env (execStep env s op)


theorem execStep_of_error {env : FHEEnv} {s : ContractState} {op : Op} {e : Err}
    (h : step env s op = .error e) : execStep env s op = s := by
  simp [execStep, h]

theorem execStep_of_ok {env : FHEEnv} {s : ContractState} {op : Op}
    {s' : ContractState} {evs : List Event}
    (h : step env s op = .ok (s', evs)) : execStep env s op = s' := by
  simp [execStep, h]

/-- How one external call can change the decryption-context store. -/
theorem contexts_evolution (env : FHEEnv) (s : ContractState) (op : Op) :
    ((execStep env s op).decryptionContexts = s.decryptionContexts ∧
     (execStep env s op).oracleNextRequestId = s.oracleNextRequestId) ∨
    (∃ b,
      (execStep env s op).decryptionContexts =
        Function.update s.decryptionContexts s.oracleNextRequestId
          { batchId := b,
            stateHash := hashCiphertexts (buildCts s b) s.thisAddr,
            processed := false } ∧
      (execStep env s op).oracleNextRequestId = s.oracleNextRequestId + 1) ∨
    (∃ r,
      (s.decryptionContexts r).processed = false ∧
      (s.decryptionContexts r).stateHash =
        hashCiphertexts (buildCts s (s.decryptionContexts r).batchId) s.thisAddr ∧
      (execStep env s op).decryptionContexts =
        Function.update s.decryptionContexts r
          { s.decryptionContexts r with processed := true } ∧
      (execStep env s op).oracleNextRequestId = s.oracleNextRequestId) := by
  rcases hstep : step env s op with e | ⟨s', evs⟩
  · rw [execStep_of_error hstep]
    exact Or.inl ⟨rfl, rfl⟩
  · rw [execStep_of_ok hstep]
    cases op <;>
      simp only [step, transferOwnership, addProvider, removeProvider,
        setPaused, setCooldownSeconds, openNewBatch, closeCurrentBatch,
        submitEncryptedAssetAmount, submitEncryptedHedgeAmount,
        requestBatchDecryption, myCallback] at hstep <;>
      (repeat' split at hstep) <;>
      (try simp at hstep) <;>
      (obtain ⟨rfl, rfl⟩ := hstep) <;>
      first
        | exact Or.inl ⟨rfl, rfl⟩
        | exact Or.inr (Or.inl ⟨_, rfl, rfl⟩)
        | (refine Or.inr (Or.inr ⟨_, ?_, ?_, rfl, rfl⟩) <;> simp_all)

/-- Every request id at or above the gateway counter is still unset. -/
def ContextsFresh (s : ContractState) : Prop :=
  ∀ r, s.oracleNextRequestId ≤ r → s.decryptionContexts r = emptyContext

theorem contextsFresh_init (deployer self : Address) :
    ContextsFresh (initState deployer self) := fun _ _ => rfl

theorem contextsFresh_execStep (env : FHEEnv) (s : ContractState) (op : Op)
    (h : ContextsFresh s) : ContextsFresh (execStep env s op) := by
  rcases contexts_evolution env s op with ⟨hc, hn⟩ | ⟨b, hc, hn⟩ |
    ⟨r, hpr, hsh, hc, hn⟩ <;> (intro r' hr'; rw [hc]; rw [hn] at hr')
  · exact h r' hr'
  · rw [Function.update_noteq (by omega)]
    exact h r' (by omega)
  · have hne : r ≠ r' := by
      intro hrr
      rw [hrr, h r' hr'] at hsh
      simp [emptyContext, hashCiphertexts] at hsh
    rw [Function.update_noteq (Ne.symm hne)]
    exact h r' hr'

theorem contextsFresh_reachable {env : FHEEnv} {s : ContractState}
    (h : Reachable env s) : ContextsFresh s := by
  induction h with
  | init deployer self => exact contextsFresh_init deployer self
  | next op _ ih => exact contextsFresh_execStep _ _ op ih

/-- A processed flag never goes back to `false`. -/
theorem processed_persists (env : FHEEnv) {s : ContractState}
    (hs : Reachable env s) (requestId : Nat)
    (hp : (s.decryptionContexts requestId).processed = true) (op : Op) :
    ((execStep env s op).decryptionContexts requestId).processed = true := by
  rcases contexts_evolution env s op with ⟨hc, _⟩ | ⟨b, hc, _⟩ |
    ⟨r, hpr, _, hc, _⟩ <;> rw [hc]
  · exact hp
  · have hne : s.oracleNextRequestId ≠ requestId := by
      intro hrr
      have := contextsFresh_reachable hs requestId (le_of_eq hrr)
      rw [this] at hp
      simp [emptyContext] at hp
    rw [Function.update_noteq (Ne.symm hne)]
    exact hp
  · by_cases hrr : r = requestId
    · subst hrr
      simp [Function.update_same]
    · rw [Function.update_noteq (Ne.symm hrr)]
      exact hp

/-- A trivially-accepting external FHE capability used in concrete runs. -/
def envAccept : FHEEnv := ⟨fun _ => true, fun _ _ _ => true⟩

/-- Example run: deploy (deployer `7`, contract address `9`). -/
def exState0 : ContractState := initState 7 9

/-- … the owner closes batch 1 … -/
def exState1 : ContractState := execStep envAccept exState0 (.closeCurrentBatch 7)

/-- … the owner requests decryption of batch 1 at time 100 (request id 0) … -/
def exState2 : ContractState := execStep envAccept exState1 (.requestDecryption 7 100 1)

/-- … and the oracle's callback for request 0 is processed. -/
def exState3 : ContractState := execStep envAccept exState2 (.callback 0 [100, 0, 50, 20] [])

theorem exState3_reachable : Reachable envAccept exState3 :=
  .next _ (.next _ (.next _ (.init 7 9)))

/-- **C1.** The `processed` flag of a `DecryptionContext` transitions
false→true at most once and never reverses: a callback against an
already-processed context fails `ReplayAttempt` and changes no state
(whatever cleartexts and proof are supplied, valid or not), and no
operation of the contract ever sets `processed` back to `false`. -/
theorem processed_once_and_replay_guard (env : FHEEnv) {s : ContractState}
    (hs : Reachable env s) (requestId : Nat)
    (hp : (s.decryptionContexts requestId).processed = true) :
    (∀ cleartexts proof,
        myCallback env s requestId cleartexts proof = .error .ReplayAttempt ∧
        execStep env s (.callback requestId cleartexts proof) = s) ∧
    (∀ op, ((execStep env s op).decryptionContexts requestId).processed = true) := by
  constructor
  · intro cleartexts proof
    have hcb : myCallback env s requestId cleartexts proof =
        .error .ReplayAttempt := by
      simp [myCallback, hp]
    exact ⟨hcb, execStep_of_error (by simpa [step] using hcb)⟩
  · exact fun op => processed_persists env hs requestId hp op

/-- Witness for C1 at the example run: request 0 is processed in
`exState3`; replaying its callback fails `ReplayAttempt` with no state
change, and `processed` survives a further operation. -/
theorem processed_once_and_replay_guard_witness :
    myCallback envAccept exState3 0 [100, 0, 50, 20] [] = .error .ReplayAttempt ∧
    execStep envAccept exState3 (.callback 0 [100, 0, 50, 20] []) = exState3 ∧
    ((execStep envAccept exState3 (.openNewBatch 7)).decryptionContexts 0).processed
      = true := by
  obtain ⟨h1, h2⟩ :=
    processed_once_and_replay_guard envAccept exState3_reachable 0 rfl
  exact ⟨(h1 _ _).1, (h1 _ _).2, h2 (.openNewBatch 7)⟩

/-- **C2.** A callback whose recomputed hash (over the current stored
submissions of the context's batch) differs from the stored `stateHash`
fails `StateMismatch`, the context's `processed` stays `false`, no state
is mutated; and any failing callback leaves the state unchanged. -/
theorem callback_state_mismatch_atomic (env : FHEEnv) (s : ContractState)
    (requestId : Nat) (cleartexts proof : List Word)
    (hp : (s.decryptionContexts requestId).processed = false)
    (hh : hashCiphertexts (buildCts s (s.decryptionContexts requestId).batchId)
            s.thisAddr ≠ (s.decryptionContexts requestId).stateHash) :
    myCallback env s requestId cleartexts proof = .error .StateMismatch ∧
    execStep env s (.callback requestId cleartexts proof) = s ∧
    ((execStep env s (.callback requestId cleartexts proof)).decryptionContexts
        requestId).processed = false ∧
    (∀ (s₀ : ContractState) (r : Nat) (c p : List Word) (e : Err),
        myCallback env s₀ r c p = .error e →
        execStep env s₀ (.callback r c p) = s₀) := by
  have hcb : myCallback env s requestId cleartexts proof =
      .error .StateMismatch := by
    simp [myCallback, hp, hh]
  have hex : execStep env s (.callback requestId cleartexts proof) = s :=
    execStep_of_error (by simpa [step] using hcb)
  refine ⟨hcb, hex, by rw [hex]; exact hp, ?_⟩
  intro s₀ r c p e h
  exact execStep_of_error (by simpa [step] using h)

/-- A state holding an unprocessed context for request 0 whose stored
hash no longer matches the (all-default) stored submissions. -/
def mismatchState : ContractState :=
  { exState0 with
      decryptionContexts :=
        Function.update (fun _ => emptyContext) 0
          { batchId := 1, stateHash := some ([1, 2, 3, 4], 9),
            processed := false } }

/-- Witness for C2 at `mismatchState`. -/
theorem callback_state_mismatch_atomic_witness :
    myCallback envAccept mismatchState 0 [100, 0, 50, 20] [] =
      .error .StateMismatch ∧
    execStep envAccept mismatchState (.callback 0 [100, 0, 50, 20] []) =
      mismatchState := by
  obtain ⟨h1, h2, _, _⟩ :=
    callback_state_mismatch_atomic envAccept mismatchState 0
      [100, 0, 50, 20] [] rfl (by decide)
  exact ⟨h1, h2⟩

/-- **C3.** On a closed batch, `requestBatchDecryption` snapshots the
4-slot ordered handle list `[Asset1.Amount, Asset1.Hedge, Asset2.Amount,
Asset2.Hedge]` over the fixed asset enumeration, hashes it together with
the contract's own address into `stateHash`, stores an unprocessed
context under the fresh request id; a successful callback decodes the
cleartexts positionally in the same order, so cleartexts
`[100, 0, 50, 20]` yield `DecryptionCompleted` with asset amounts
`[100, 50]` and hedge amounts `[0, 20]`. -/
theorem request_snapshot_order_and_positional_decode
    (env : FHEEnv) (s : ContractState) (now batchId : Nat) (proof : List Word)
    (hpause : s.paused = false)
    (hcool : s.lastDecryptionRequestTime s.owner + s.cooldownSeconds ≤ now)
    (hclosed : s.isBatchClosed batchId = true)
    (hsig : env.checkSignatures s.oracleNextRequestId [100, 0, 50, 20] proof
            = true) :
    buildCts s batchId =
      [s.encryptedAssetAmounts batchId asset1,
       s.encryptedHedgeAmounts batchId asset1,
       s.encryptedAssetAmounts batchId asset2,
       s.encryptedHedgeAmounts batchId asset2] ∧
    (∃ s',
      requestBatchDecryption s s.owner now batchId =
        .ok (s', [.DecryptionRequested s.oracleNextRequestId batchId
                    (hashCiphertexts (buildCts s batchId) s.thisAddr)]) ∧
      s'.decryptionContexts s.oracleNextRequestId =
        { batchId := batchId,
          stateHash := hashCiphertexts (buildCts s batchId) s.thisAddr,
          processed := false } ∧
      ∃ s'',
        myCallback env s' s.oracleNextRequestId [100, 0, 50, 20] proof =
          .ok (s'', [.DecryptionCompleted s.oracleNextRequestId batchId
                       [100, 50] [0, 20]]) ∧
        (s''.decryptionContexts s.oracleNextRequestId).processed = true) := by
  have hreq :
      requestBatchDecryption s s.owner now batchId =
        .ok ({ s with
                decryptionContexts :=
                  Function.update s.decryptionContexts s.oracleNextRequestId
                    { batchId := batchId,
                      stateHash := hashCiphertexts (buildCts s batchId) s.thisAddr,
                      processed := false }
                oracleNextRequestId := s.oracleNextRequestId + 1
                lastDecryptionRequestTime :=
                  Function.update s.lastDecryptionRequestTime s.owner now },
              [.DecryptionRequested s.oracleNextRequestId batchId
                 (hashCiphertexts (buildCts s batchId) s.thisAddr)]) := by
    simp [requestBatchDecryption, hpause, hclosed, Nat.not_lt.mpr hcool]
  refine ⟨rfl, _, hreq, Function.update_same _ _ _,
    { s with
        decryptionContexts :=
          Function.update
            (Function.update s.decryptionContexts s.oracleNextRequestId
              { batchId := batchId,
                stateHash := hashCiphertexts (buildCts s batchId) s.thisAddr,
                processed := false })
            s.oracleNextRequestId
            { batchId := batchId,
              stateHash := hashCiphertexts (buildCts s batchId) s.thisAddr,
              processed := true }
        oracleNextRequestId := s.oracleNextRequestId + 1
        lastDecryptionRequestTime :=
          Function.update s.lastDecryptionRequestTime s.owner now }, ?_, ?_⟩
  · simp [myCallback, buildCts, hsig, Function.update_same, assetList,
      List.range_succ]
  · simp [Function.update_same]

/-- Witness for C3 at `exState1` (batch 1 closed, all handles default):
request id 0, state hash over `[0,0,0,0]` and contract address 9, and
the callback decodes `[100,0,50,20]` into `[100,50]` / `[0,20]`. -/
theorem request_snapshot_order_and_positional_decode_witness :
    exState1.isBatchClosed 1 = true ∧
    buildCts exState1 1 = [0, 0, 0, 0] ∧
    ∃ s' s'',
      requestBatchDecryption exState1 exState1.owner 100 1 =
        .ok (s', [.DecryptionRequested 0 1 (some ([0, 0, 0, 0], 9))]) ∧
      myCallback envAccept s' 0 [100, 0, 50, 20] [] =
        .ok (s'', [.DecryptionCompleted 0 1 [100, 50] [0, 20]]) := by
  obtain ⟨hord, s', hreq, hctx, s'', hcb, hproc⟩ :=
    request_snapshot_order_and_positional_decode envAccept exState1 100 1 []
      rfl (by decide) rfl rfl
  exact ⟨rfl, hord, s', s'', hreq, hcb⟩

/-- How one external call can change the batch bookkeeping: nothing, a
fresh current id (`openNewBatch`), or closing the current id
(`closeCurrentBatch`). -/
theorem batches_evolution (env : FHEEnv) (s : ContractState) (op : Op) :
    ((execStep env s op).currentBatchId = s.currentBatchId ∧
     (execStep env s op).isBatchClosed = s.isBatchClosed) ∨
    ((execStep env s op).currentBatchId = s.currentBatchId + 1 ∧
     (execStep env s op).isBatchClosed = s.isBatchClosed) ∨
    ((execStep env s op).currentBatchId = s.currentBatchId ∧
     (execStep env s op).isBatchClosed =
       Function.update s.isBatchClosed s.currentBatchId true) := by
  rcases hstep : step env s op with e | ⟨s', evs⟩
  · rw [execStep_of_error hstep]
    exact Or.inl ⟨rfl, rfl⟩
  · rw [execStep_of_ok hstep]
    cases op <;>
      simp only [step, transferOwnership, addProvider, removeProvider,
        setPaused, setCooldownSeconds, openNewBatch, closeCurrentBatch,
        submitEncryptedAssetAmount, submitEncryptedHedgeAmount,
        requestBatchDecryption, myCallback] at hstep <;>
      (repeat' split at hstep) <;>
      (try simp at hstep) <;>
      (obtain ⟨rfl, rfl⟩ := hstep) <;>
      first
        | exact Or.inl ⟨rfl, rfl⟩
        | exact Or.inr (Or.inl ⟨rfl, rfl⟩)
        | exact Or.inr (Or.inr ⟨rfl, rfl⟩)

/-- In every reachable state the current batch id is at least 1 and no
batch id above it has been touched. -/
theorem batch_invariant {env : FHEEnv} {s : ContractState}
    (hs : Reachable env s) :
    1 ≤ s.currentBatchId ∧
    ∀ b, s.currentBatchId < b → s.isBatchClosed b = false := by
  induction hs with
  | init deployer self => exact ⟨le_refl 1, fun b hb => rfl⟩
  | next op hprev ih =>
      obtain ⟨h1, h2⟩ := ih
      rcases batches_evolution _ _ op with ⟨hc, hb⟩ | ⟨hc, hb⟩ | ⟨hc, hb⟩ <;>
        (rw [hc, hb]; refine ⟨by omega, fun b hb' => ?_⟩)
      · exact h2 b hb'
      · exact h2 b (by omega)
      · rw [Function.update_noteq (by omega)]
        exact h2 b hb'

/-- **C4 (counterexample).** `openNewBatch` from the freshly deployed
state yields a reachable state with `currentBatchId = 2` in which both
batch 1 and batch 2 are not closed, i.e. Open: more than one batch is
Open, and the Open batch 1 does not have the highest issued id. -/
theorem single_open_batch_cex :
    Reachable envAccept (execStep envAccept exState0 (.openNewBatch 7)) ∧
    (execStep envAccept exState0 (.openNewBatch 7)).currentBatchId = 2 ∧
    (execStep envAccept exState0 (.openNewBatch 7)).isBatchClosed 1 = false ∧
    (execStep envAccept exState0 (.openNewBatch 7)).isBatchClosed 2 = false :=
  ⟨.next _ (.init 7 9), rfl, rfl, rfl⟩

/-- **C4 (amended).** At most one batch is *current*, and the current
batch id is the highest batch id issued so far: it starts at 1, never
decreases under any operation, and every batch id above it is still in
its untouched default (not closed) state.  (`openNewBatch` does not
close the previous batch, so batches with lower ids may also still be
Open — the original single-Open-batch claim fails, see the
counterexample.) -/
theorem current_batch_highest_issued (env : FHEEnv) {s : ContractState}
    (hs : Reachable env s) :
    1 ≤ s.currentBatchId ∧
    (∀ b, s.currentBatchId < b → s.isBatchClosed b = false) ∧
    (∀ op, s.currentBatchId ≤ (execStep env s op).currentBatchId) := by
  obtain ⟨h1, h2⟩ := batch_invariant hs
  refine ⟨h1, h2, fun op => ?_⟩
  rcases batches_evolution env s op with ⟨hc, _⟩ | ⟨hc, _⟩ | ⟨hc, _⟩ <;>
    (rw [hc]; try omega)

/-- Witness for the amended C4 at the freshly deployed state. -/
theorem current_batch_highest_issued_witness :
    1 ≤ exState0.currentBatchId ∧
    exState0.isBatchClosed 5 = false ∧
    exState0.currentBatchId ≤
      (execStep envAccept exState0 (.openNewBatch 7)).currentBatchId := by
  obtain ⟨h1, h2, h3⟩ :=
    current_batch_highest_issued envAccept (.init 7 9)
  exact ⟨h1, h2 5 (by decide), h3 (.openNewBatch 7)⟩

/-- **C5.** A provider's successful submission stores the handle and
records the cooldown timestamp; a second submission within the cooldown
window fails `CooldownActive` and leaves the stored handle and the
cooldown timestamp unchanged; and no failure path of submit mutates any
state. -/
theorem submit_cooldown_atomic (env : FHEEnv) (s : ContractState)
    (p : Address) (now1 now2 : Nat) (a a' : Address) (h1 h2 : Word)
    (hprov : s.isProvider p = true)
    (hpause : s.paused = false)
    (hcool1 : s.lastSubmissionTime p + s.cooldownSeconds ≤ now1)
    (hopen : s.isBatchClosed s.currentBatchId = false)
    (hinit : env.isInit h1 = true)
    (hwin : now2 < now1 + s.cooldownSeconds) :
    ∃ s1,
      submitEncryptedAssetAmount env s p now1 s.currentBatchId a h1 =
        .ok (s1, [.AssetSubmitted s.currentBatchId p a h1]) ∧
      s1.encryptedAssetAmounts s.currentBatchId a = h1 ∧
      s1.lastSubmissionTime p = now1 ∧
      submitEncryptedAssetAmount env s1 p now2 s.currentBatchId a' h2 =
        .error .CooldownActive ∧
      execStep env s1 (.submitAsset p now2 s.currentBatchId a' h2) = s1 ∧
      (execStep env s1 (.submitAsset p now2 s.currentBatchId a' h2)
          ).encryptedAssetAmounts s.currentBatchId a = h1 ∧
      (execStep env s1 (.submitAsset p now2 s.currentBatchId a' h2)
          ).lastSubmissionTime p = now1 ∧
      (∀ (s₀ : ContractState) sender now b asset amt e,
        submitEncryptedAssetAmount env s₀ sender now b asset amt = .error e →
        execStep env s₀ (.submitAsset sender now b asset amt) = s₀) := by
  set s1 : ContractState := { s with
      encryptedAssetAmounts :=
        Function.update s.encryptedAssetAmounts s.currentBatchId
          (Function.update (s.encryptedAssetAmounts s.currentBatchId) a h1)
      lastSubmissionTime := Function.update s.lastSubmissionTime p now1 }
    with hs1
  have herr : submitEncryptedAssetAmount env s1 p now2 s.currentBatchId a' h2 =
      .error .CooldownActive := by
    simp [hs1, submitEncryptedAssetAmount, hprov, hpause, hwin]
  have hexec : execStep env s1 (.submitAsset p now2 s.currentBatchId a' h2) = s1 :=
    execStep_of_error (by simpa [step] using herr)
  refine ⟨s1, ?_, ?_, ?_, herr, hexec, ?_, ?_, ?_⟩
  · simp [hs1, submitEncryptedAssetAmount, hprov, hpause, hopen, hinit,
      Nat.not_lt.mpr hcool1]
  · simp [hs1]
  · simp [hs1]
  · rw [hexec]; simp [hs1]
  · rw [hexec]; simp [hs1]
  · intro s₀ sender now b asset amt e h
    exact execStep_of_error (by simpa [step] using h)

/-- The deployed state after `addProvider(5)`. -/
def provState : ContractState := execStep envAccept exState0 (.addProvider 7 5)

/-- Witness for C5: provider 5 submits handle 42 at time 100, then
fails at time 120 (within the 60-second window); state is retained. -/
theorem submit_cooldown_atomic_witness :
    ∃ s1,
      submitEncryptedAssetAmount envAccept provState 5 100 1 asset1 42 =
        .ok (s1, [.AssetSubmitted 1 5 asset1 42]) ∧
      submitEncryptedAssetAmount envAccept s1 5 120 1 asset1 43 =
        .error .CooldownActive ∧
      execStep envAccept s1 (.submitAsset 5 120 1 asset1 43) = s1 := by
  obtain ⟨s1, hok, _, _, herr, hexec, _⟩ :=
    submit_cooldown_atomic envAccept provState 5 100 120 asset1 asset1 42 43
      rfl rfl (by decide) rfl rfl (by decide)
  exact ⟨s1, hok, herr, hexec⟩

/-- Reachable paused state still holding the unprocessed request 0. -/
def pausedState : ContractState := execStep envAccept exState2 (.setPaused 7 true)

/-- **C6 (counterexample).** In a reachable paused state the decryption
callback still succeeds and sets `processed`: `myCallback` is not
pause-gated, contradicting the claim that every mutating coordinator
operation fails `Paused` while paused. -/
theorem pause_blocks_mutators_cex :
    Reachable envAccept pausedState ∧
    pausedState.paused = true ∧
    (myCallback envAccept pausedState 0 [100, 0, 50, 20] []).isOk = true ∧
    ((execStep envAccept pausedState (.callback 0 [100, 0, 50, 20] [])
        ).decryptionContexts 0).processed = true :=
  ⟨.next _ (.next _ (.next _ (.init 7 9))), rfl, rfl, rfl⟩

/-- **C6 (amended).** While paused, `openNewBatch`, `closeCurrentBatch`,
both submit entry points and `requestBatchDecryption` fail `Paused`
(for callers passing the preceding role check), and administrative
operations such as `addProvider` still succeed — but the decryption
callback is not pause-gated and can succeed while paused. -/
theorem pause_blocks_mutators (env : FHEEnv) (s : ContractState)
    (hpaused : s.paused = true) :
    openNewBatch s s.owner = .error .Paused ∧
    closeCurrentBatch s s.owner = .error .Paused ∧
    (∀ sender now b a h, s.isProvider sender = true →
      submitEncryptedAssetAmount env s sender now b a h = .error .Paused) ∧
    (∀ sender now b a h, s.isProvider sender = true →
      submitEncryptedHedgeAmount env s sender now b a h = .error .Paused) ∧
    (∀ now b, requestBatchDecryption s s.owner now b = .error .Paused) ∧
    (∀ p, addProvider s s.owner p =
      .ok ({ s with isProvider := Function.update s.isProvider p true },
           [.ProviderAdded p])) := by
  refine ⟨by simp [openNewBatch, hpaused], by simp [closeCurrentBatch, hpaused],
    ?_, ?_, ?_, ?_⟩
  · intro sender now b a h hp
    simp [submitEncryptedAssetAmount, hp, hpaused]
  · intro sender now b a h hp
    simp [submitEncryptedHedgeAmount, hp, hpaused]
  · intro now b
    simp [requestBatchDecryption, hpaused]
  · intro p
    simp [addProvider]

/-- Witness for the amended C6 at `pausedState`. -/
theorem pause_blocks_mutators_witness :
    closeCurrentBatch pausedState 7 = .error .Paused ∧
    requestBatchDecryption pausedState 7 500 1 = .error .Paused ∧
    addProvider pausedState 7 5 =
      .ok ({ pausedState with
              isProvider := Function.update pausedState.isProvider 5 true },
           [.ProviderAdded 5]) := by
  obtain ⟨_, hc, _, _, hr, ha⟩ := pause_blocks_mutators envAccept pausedState rfl
  exact ⟨hc, hr 500 1, ha 5⟩

/-- **C7 (counterexample).** Request id 5 has no stored context in the
freshly deployed state, yet the callback fails `StateMismatch`, not an
`InvalidBatch`-class error. -/
theorem missing_context_invalid_batch_cex :
    (initState 7 9).decryptionContexts 5 = emptyContext ∧
    myCallback envAccept (initState 7 9) 5 [1, 2, 3, 4] [] =
      .error .StateMismatch :=
  ⟨rfl, rfl⟩

/-- **C7 (amended).** A callback for a request id with no stored
context fails and mutates no state — but with `StateMismatch`, not an
`InvalidBatch`-class error: the lookup returns the zero context, which
passes the replay guard and then fails the hash comparison, since the
zero `stateHash` never equals a computed hash. -/
theorem missing_context_fails_state_mismatch (env : FHEEnv)
    (s : ContractState) (requestId : Nat) (cleartexts proof : List Word)
    (hmiss : s.decryptionContexts requestId = emptyContext) :
    myCallback env s requestId cleartexts proof = .error .StateMismatch ∧
    execStep env s (.callback requestId cleartexts proof) = s := by
  have hcb : myCallback env s requestId cleartexts proof =
      .error .StateMismatch := by
    simp [myCallback, hmiss, emptyContext, hashCiphertexts]
  exact ⟨hcb, execStep_of_error (by simpa [step] using hcb)⟩

/-- Witness for the amended C7. -/
theorem missing_context_fails_state_mismatch_witness :
    myCallback envAccept (initState 7 9) 5 [1, 2, 3, 4] [] =
      .error .StateMismatch ∧
    execStep envAccept (initState 7 9) (.callback 5 [1, 2, 3, 4] []) =
      initState 7 9 :=
  missing_context_fails_state_mismatch envAccept (initState 7 9) 5
    [1, 2, 3, 4] [] rfl

/-- **C8.** For the owner of an unpaused contract with the decryption
cooldown elapsed, `requestBatchDecryption` on a batch that is not
Closed fails `InvalidBatch`: no `DecryptionContext` is created, the
requester's cooldown timestamp is unchanged, and the state is exactly
the pre-state. -/
theorem request_open_batch_fails (env : FHEEnv) (s : ContractState)
    (now batchId : Nat)
    (hopen : s.isBatchClosed batchId = false)
    (hpause : s.paused = false)
    (hcool : s.lastDecryptionRequestTime s.owner + s.cooldownSeconds ≤ now) :
    requestBatchDecryption s s.owner now batchId = .error .InvalidBatch ∧
    execStep env s (.requestDecryption s.owner now batchId) = s ∧
    (execStep env s (.requestDecryption s.owner now batchId)
        ).decryptionContexts = s.decryptionContexts ∧
    (execStep env s (.requestDecryption s.owner now batchId)
        ).lastDecryptionRequestTime s.owner =
      s.lastDecryptionRequestTime s.owner := by
  have hr : requestBatchDecryption s s.owner now batchId =
      .error .InvalidBatch := by
    simp [requestBatchDecryption, hpause, hopen, Nat.not_lt.mpr hcool]
  have he : execStep env s (.requestDecryption s.owner now batchId) = s :=
    execStep_of_error (by simpa [step] using hr)
  exact ⟨hr, he, by rw [he], by rw [he]⟩

/-- Witness for C8 at the freshly deployed state (batch 1 still Open). -/
theorem request_open_batch_fails_witness :
    requestBatchDecryption exState0 7 100 1 = .error .InvalidBatch ∧
    execStep envAccept exState0 (.requestDecryption 7 100 1) = exState0 := by
  obtain ⟨h1, h2, _, _⟩ :=
    request_open_batch_fails envAccept exState0 100 1 rfl rfl (by decide)
  exact ⟨h1, h2⟩

/-- `s` with its submission storage replaced wholesale: the states that
differ from `s` only in stored submissions. -/
def withSubmissions (s : ContractState) (A B : Nat → Address → Word) :
    ContractState :=
  { s with encryptedAssetAmounts := A, encryptedHedgeAmounts := B }

/-- What a caller observes of one call: the error, or the emitted
events (the resulting storage is projected separately). -/
def resultObs : Result → Except Err (List Event)
  | .error e => .error e
  | .ok (_, evs) => .ok evs

theorem withSubmissions_thisAddr (s : ContractState) (A B : Nat → Address → Word) :
    (withSubmissions s A B).thisAddr = s.thisAddr := rfl

theorem withSubmissions_owner (s : ContractState) (A B : Nat → Address → Word) :
    (withSubmissions s A B).owner = s.owner := rfl

theorem withSubmissions_paused (s : ContractState) (A B : Nat → Address → Word) :
    (withSubmissions s A B).paused = s.paused := rfl

theorem withSubmissions_cooldownSeconds (s : ContractState)
    (A B : Nat → Address → Word) :
    (withSubmissions s A B).cooldownSeconds = s.cooldownSeconds := rfl

theorem withSubmissions_lastDecryptionRequestTime (s : ContractState)
    (A B : Nat → Address → Word) :
    (withSubmissions s A B).lastDecryptionRequestTime =
      s.lastDecryptionRequestTime := rfl

theorem withSubmissions_isBatchClosed (s : ContractState)
    (A B : Nat → Address → Word) :
    (withSubmissions s A B).isBatchClosed = s.isBatchClosed := rfl

theorem withSubmissions_decryptionContexts (s : ContractState)
    (A B : Nat → Address → Word) :
    (withSubmissions s A B).decryptionContexts = s.decryptionContexts := rfl

theorem withSubmissions_oracleNextRequestId (s : ContractState)
    (A B : Nat → Address → Word) :
    (withSubmissions s A B).oracleNextRequestId = s.oracleNextRequestId := rfl

/-- **C9.** The decryption snapshot, `stateHash` and the
`DecryptionCompleted` outputs depend only on the stored Amount and
Hedge handles of the two hard-coded assets: replacing the submission
storage by any maps that agree on those four slots for the relevant
batch leaves `buildCts`, the observable outcome of
`requestBatchDecryption`, and the observable outcome and context
bookkeeping of `myCallback` unchanged — submissions under any other
asset address are never decrypted. -/
theorem decryption_reads_only_fixed_assets (env : FHEEnv)
    (s : ContractState) (A B : Nat → Address → Word) (b : Nat)
    (hA1 : A b asset1 = s.encryptedAssetAmounts b asset1)
    (hB1 : B b asset1 = s.encryptedHedgeAmounts b asset1)
    (hA2 : A b asset2 = s.encryptedAssetAmounts b asset2)
    (hB2 : B b asset2 = s.encryptedHedgeAmounts b asset2) :
    buildCts (withSubmissions s A B) b = buildCts s b ∧
    (∀ sender now,
      resultObs (requestBatchDecryption (withSubmissions s A B) sender now b) =
        resultObs (requestBatchDecryption s sender now b) ∧
      (execStep env (withSubmissions s A B) (.requestDecryption sender now b)
          ).decryptionContexts =
        (execStep env s (.requestDecryption sender now b)).decryptionContexts) ∧
    (∀ requestId cleartexts proof,
      (s.decryptionContexts requestId).batchId = b →
      resultObs (myCallback env (withSubmissions s A B) requestId
          cleartexts proof) =
        resultObs (myCallback env s requestId cleartexts proof) ∧
      (execStep env (withSubmissions s A B)
          (.callback requestId cleartexts proof)).decryptionContexts =
        (execStep env s (.callback requestId cleartexts proof)
          ).decryptionContexts) := by
  have hcts : buildCts (withSubmissions s A B) b = buildCts s b := by
    simp [buildCts, withSubmissions, assetList, hA1, hB1, hA2, hB2]
  refine ⟨hcts, fun sender now => ?_, fun requestId cleartexts proof hb => ?_⟩
  · constructor
    · simp only [requestBatchDecryption, withSubmissions_owner,
        withSubmissions_paused, withSubmissions_cooldownSeconds,
        withSubmissions_lastDecryptionRequestTime, withSubmissions_isBatchClosed,
        withSubmissions_decryptionContexts, withSubmissions_oracleNextRequestId,
        withSubmissions_thisAddr, hcts]
      split_ifs <;> rfl
    · simp only [execStep, step, requestBatchDecryption, withSubmissions_owner,
        withSubmissions_paused, withSubmissions_cooldownSeconds,
        withSubmissions_lastDecryptionRequestTime, withSubmissions_isBatchClosed,
        withSubmissions_decryptionContexts, withSubmissions_oracleNextRequestId,
        withSubmissions_thisAddr, hcts]
      split_ifs <;> rfl
  · have hcts' : buildCts (withSubmissions s A B)
        ((s.decryptionContexts requestId).batchId) =
        buildCts s ((s.decryptionContexts requestId).batchId) := by
      rw [hb]; exact hcts
    constructor
    · simp only [myCallback, withSubmissions_decryptionContexts,
        withSubmissions_thisAddr, hcts']
      split_ifs <;> rfl
    · simp only [execStep, step, myCallback, withSubmissions_decryptionContexts,
        withSubmissions_thisAddr, hcts']
      split_ifs <;> rfl

/-- Junk submission storage: nonzero only under asset address 5. -/
def junkAmounts : Nat → Address → Word := fun _ a => if a = 5 then 99 else 0

/-- All-default submission storage. -/
def zeroAmounts : Nat → Address → Word := fun _ _ => 0

/-- Witness for C9: junk submissions under asset address 5 change
neither the snapshot nor the observable request outcome. -/
theorem decryption_reads_only_fixed_assets_witness :
    buildCts (withSubmissions exState1 junkAmounts zeroAmounts) 1 =
      buildCts exState1 1 ∧
    resultObs (requestBatchDecryption
        (withSubmissions exState1 junkAmounts zeroAmounts) 7 100 1) =
      resultObs (requestBatchDecryption exState1 7 100 1) := by
  obtain ⟨h1, h2, _⟩ :=
    decryption_reads_only_fixed_assets envAccept exState1 junkAmounts
      zeroAmounts 1 (by decide) rfl (by decide) rfl
  exact ⟨h1, (h2 7 100).1⟩

/-- The only operation that changes `owner` is a `transferOwnership`
sent by the current owner. -/
theorem owner_evolution (env : FHEEnv) (s : ContractState) (op : Op) :
    (execStep env s op).owner = s.owner ∨
    ∃ n, op = .transferOwnership s.owner n ∧ (execStep env s op).owner = n := by
  rcases hstep : step env s op with e | ⟨s', evs⟩
  · rw [execStep_of_error hstep]
    exact Or.inl rfl
  · rw [execStep_of_ok hstep]
    cases op <;>
      simp only [step, transferOwnership, addProvider, removeProvider,
        setPaused, setCooldownSeconds, openNewBatch, closeCurrentBatch,
        submitEncryptedAssetAmount, submitEncryptedHedgeAmount,
        requestBatchDecryption, myCallback] at hstep <;>
      (repeat' split at hstep) <;>
      (try simp at hstep) <;>
      (obtain ⟨rfl, rfl⟩ := hstep) <;>
      first
        | exact Or.inl rfl
        | (rename_i sender newOwner h
           exact Or.inr ⟨newOwner, by rw [not_not.mp h], rfl⟩)

/-- **C10.** `transferOwnership` called by the owner sets `owner` to
the given address unconditionally — including the zero address and the
current owner, with no validation; once `owner = 0`, every owner-only
operation fails `NotOwner` for every (nonzero) caller, and no operation
by a nonzero caller can ever change `owner` away from 0 again. -/
theorem transfer_ownership_unchecked (env : FHEEnv) :
    (∀ (s : ContractState) (newOwner : Address),
      transferOwnership s s.owner newOwner =
        .ok ({ s with owner := newOwner },
             [.OwnershipTransferred s.owner newOwner])) ∧
    (∀ (s : ContractState) (sender : Address), s.owner = 0 → sender ≠ 0 →
      ∀ (x : Address) (f : Bool) (n now b : Nat),
        transferOwnership s sender x = .error .NotOwner ∧
        addProvider s sender x = .error .NotOwner ∧
        removeProvider s sender x = .error .NotOwner ∧
        setPaused s sender f = .error .NotOwner ∧
        setCooldownSeconds s sender n = .error .NotOwner ∧
        openNewBatch s sender = .error .NotOwner ∧
        closeCurrentBatch s sender = .error .NotOwner ∧
        requestBatchDecryption s sender now b = .error .NotOwner) ∧
    (∀ (s : ContractState) (op : Op), s.owner = 0 →
      op.senderOf ≠ some 0 → (execStep env s op).owner = 0) := by
  refine ⟨?_, ?_, ?_⟩
  · intro s newOwner
    simp [transferOwnership]
  · intro s sender h0 hsend x f n now b
    refine ⟨?_, ?_, ?_, ?_, ?_, ?_, ?_, ?_⟩ <;>
      simp [transferOwnership, addProvider, removeProvider, setPaused,
        setCooldownSeconds, openNewBatch, closeCurrentBatch,
        requestBatchDecryption, h0, hsend]
  · intro s op h0 hsender
    rcases owner_evolution env s op with h | ⟨n, hop, h⟩
    · rw [h, h0]
    · subst hop
      simp [Op.senderOf, h0] at hsender

/-- The example state after the owner transfers ownership to 0x0. -/
def zeroOwnerState : ContractState :=
  execStep envAccept exState0 (.transferOwnership 7 0)

/-- Witness for C10: ownership is transferred to 0 unconditionally;
afterwards `addProvider` fails `NotOwner` for caller 5 and the owner
stays 0 across a further call. -/
theorem transfer_ownership_unchecked_witness :
    transferOwnership exState0 7 0 =
      .ok ({ exState0 with owner := 0 }, [.OwnershipTransferred 7 0]) ∧
    addProvider zeroOwnerState 5 3 = .error .NotOwner ∧
    (execStep envAccept zeroOwnerState (.addProvider 5 3)).owner = 0 := by
  obtain ⟨h1, h2, h3⟩ := transfer_ownership_unchecked envAccept
  exact ⟨h1 exState0 0,
    (h2 zeroOwnerState 5 rfl (by decide) 3 false 0 0 0).2.1,
    h3 zeroOwnerState (.addProvider 5 3) rfl (by decide)⟩
end DAOTreasuryHedge
